import Mathlib

/-!
Shallow embedding of the dmxparser repository (a decoder for the Valve DMX
binary tree-exchange format) and proofs about its claimed behaviour.

Embedding conventions:
- bytes are natural numbers (a well-formed input byte is below 256);
- decoded strings are kept as their UTF-8 byte lists;
- 32-bit floats are carried as their 32-bit little-endian bit patterns,
  since the decoder only transports them (it never computes with them);
- machine integers are Int or Nat with explicit two's-complement reduction;
- a Rust panic (assertion failure, out-of-bounds slice index, unwrap of
  None) is modelled by the distinguished outcome named crash, while an
  error returned through the Result type is modelled by the error outcome.
-/

/-- Byte strings: lists of natural numbers, one per byte. -/
abbrev Bytes := List Nat

/-- Errors returned (as values) by the decoder, mirroring the anyhow error
values constructed in src/read.rs and src/dmx.rs. -/
inductive DmxError where
  /-- Underlying stream failure of read_exact: fewer bytes than requested. -/
  | ioError : DmxError
  /-- Slice read_until: the delimiter byte was not found in the remaining input. -/
  | delimiterNotFound (delimiter : Nat) : DmxError
  /-- Invalid UTF-8 while decoding a string; carries the offending raw bytes. -/
  | utf8Error (bytes : Bytes) : DmxError
  /-- Unimplemented AttributeType: carries the raw tag byte. -/
  | unsupportedType (tag : Nat) : DmxError
  /-- FileHeader parsing: a separator character was not found. -/
  | separatorNotFound (sep : Nat) : DmxError
  /-- Failure of i32 string parsing (empty, non-digit, or overflow). -/
  | parseIntError : DmxError
  /-- Context wrap of a prefix-attribute decode failure with the attribute name. -/
  | prefixAttributeContext (name : Bytes) (inner : DmxError) : DmxError
  /-- The AttributeError context: raw name reference, optionally resolved. -/
  | attributeContext (name : Int) (resolved : Option Bytes) (inner : DmxError) : DmxError
deriving DecidableEq, Repr

/-- Outcome of a read step: success with a value and the remaining input,
a returned error value, or a process crash (Rust panic). -/
inductive Res (α : Type) where
  | ok (a : α) (rest : Bytes) : Res α
  | error (e : DmxError) : Res α
  | crash : Res α
deriving DecidableEq, Repr

/-- Sequencing of read steps, threading the remaining input. -/
def Res.bind {α β : Type} : Res α → (α → Bytes → Res β) → Res β
  | .ok a rest, f => f a rest
  | .error e, _ => .error e
  | .crash, _ => .crash

/-- The two conforming byte-source variants of src/read.rs: the borrowed
slice reader and the owned stream reader over any BufRead source. -/
inductive RVariant where
  | slice
  | stream
deriving DecidableEq, Repr

/-- Reading a fixed number of bytes. Embeds Slice read_into and read_bytes
(which use slice split_at and hence crash when the input is short) and the
BufRead based read_into and read_bytes (read_exact, which returns an
I/O error when the input is short). -/
def readBytes (v : RVariant) (n : Nat) (s : Bytes) : Res Bytes :=
  if n ≤ s.length then .ok (s.take n) (s.drop n)
  else
    match v with
    | .slice => .crash
    | .stream => .error .ioError

/-- Reading up to and including a delimiter byte. The slice variant
locates the first position of the delimiter and fails when it is absent;
the stream variant is BufRead read_until, which stops at the delimiter or
at end of input, returning the bytes read either way. -/
def readUntil (v : RVariant) (d : Nat) : Bytes → Res Bytes
  | [] =>
    match v with
    | .slice => .error (.delimiterNotFound d)
    | .stream => .ok [] []
  | b :: rest =>
    if b = d then .ok [b] rest
    else
      match readUntil v d rest with
      | .ok pre post => .ok (b :: pre) post
      | .error e => .error e
      | .crash => .crash

/-- Whether a byte is a UTF-8 continuation byte (0x80 to 0xBF). -/
def utf8Cont (b : Nat) : Bool := 0x80 ≤ b && b ≤ 0xBF

/-- UTF-8 validity of a byte list, the check performed by the standard
from_utf8 used in src/read.rs (rejecting overlong forms, surrogates and
code points above 0x10FFFF). -/
def utf8Valid : Bytes → Bool
  | [] => true
  | b :: rest =>
    if b ≤ 0x7F then utf8Valid rest
    else if 0xC2 ≤ b && b ≤ 0xDF then
      match rest with
      | c1 :: r => utf8Cont c1 && utf8Valid r
      | [] => false
    else if 0xE0 ≤ b && b ≤ 0xEF then
      match rest with
      | c1 :: c2 :: r =>
        (if b = 0xE0 then 0xA0 ≤ c1 && c1 ≤ 0xBF
         else if b = 0xED then 0x80 ≤ c1 && c1 ≤ 0x9F
         else utf8Cont c1) && utf8Cont c2 && utf8Valid r
      | _ => false
    else if 0xF0 ≤ b && b ≤ 0xF4 then
      match rest with
      | c1 :: c2 :: c3 :: r =>
        (if b = 0xF0 then 0x90 ≤ c1 && c1 ≤ 0xBF
         else if b = 0xF4 then 0x80 ≤ c1 && c1 ≤ 0x8F
         else utf8Cont c1) && utf8Cont c2 && utf8Cont c3 && utf8Valid r
      | _ => false
    else false

/-- Reading a NUL-terminated string as its UTF-8 bytes. Embeds the two
Readable string impls of src/read.rs: the borrowed variant drops the final
byte of the chunk returned by read_until; the owned variant pops the last
byte (a crash when the chunk is empty, possible at end of stream input).
Both validate UTF-8 and report the offending bytes on failure. -/
def stringRead (v : RVariant) (s : Bytes) : Res Bytes :=
  match readUntil v 0 s with
  | .ok bs rest =>
    match v with
    | .slice =>
      let b2 := bs.dropLast
      if utf8Valid b2 then .ok b2 rest else .error (.utf8Error b2)
    | .stream =>
      if bs.isEmpty then .crash
      else
        let b2 := bs.dropLast
        if utf8Valid b2 then .ok b2 rest else .error (.utf8Error b2)
  | .error e => .error e
  | .crash => .crash

/-- Little-endian value of a byte list. -/
def fromLE (bs : Bytes) : Nat := bs.foldr (fun b acc => b + 256 * acc) 0

/-- Two's-complement reading of a 32-bit pattern as a signed integer. -/
def asInt32 (n : Nat) : Int :=
  let m : Nat := n % 2 ^ 32
  if m < 2 ^ 31 then (m : Int) else (m : Int) - 2 ^ 32

/-- Two's-complement reading of an 8-bit pattern as a signed integer. -/
def asInt8 (n : Nat) : Int :=
  let m : Nat := n % 2 ^ 8
  if m < 2 ^ 7 then (m : Int) else (m : Int) - 2 ^ 8

/-- Readable impl for u8: one byte, little-endian. -/
def readU8 (v : RVariant) (s : Bytes) : Res Nat :=
  Res.bind (readBytes v 1 s) fun bs rest => .ok (fromLE bs % 2 ^ 8) rest

/-- Readable impl for c_char (i8): one byte, two's complement. -/
def readI8 (v : RVariant) (s : Bytes) : Res Int :=
  Res.bind (readBytes v 1 s) fun bs rest => .ok (asInt8 (fromLE bs)) rest

/-- Readable impl for c_int (i32): four bytes, little-endian, two's complement. -/
def readI32 (v : RVariant) (s : Bytes) : Res Int :=
  Res.bind (readBytes v 4 s) fun bs rest => .ok (asInt32 (fromLE bs)) rest

/-- Readable impl for c_float (f32): four bytes, kept as the 32-bit pattern. -/
def readF32 (v : RVariant) (s : Bytes) : Res Nat :=
  Res.bind (readBytes v 4 s) fun bs rest => .ok (fromLE bs % 2 ^ 32) rest

/-- Readable impl for u64: eight bytes, little-endian. -/
def readU64 (v : RVariant) (s : Bytes) : Res Nat :=
  Res.bind (readBytes v 8 s) fun bs rest => .ok (fromLE bs % 2 ^ 64) rest

/-- The closed set of attribute type tags of src/dmx.rs. Note the source
declares no Uint8Array variant: there are 16 scalar kinds but only 15
array kinds. -/
inductive AttributeType where
  | element | int | float | bool | string | binary | time | color
  | vector2 | vector3 | vector4 | qangle | quaternion | vmatrix
  | uint64 | uint8
  | elementArray | intArray | floatArray | boolArray | stringArray
  | binaryArray | timeArray | colorArray | vector2Array | vector3Array
  | vector4Array | qangleArray | quaternionArray | vmatrixArray
  | uint64Array
deriving DecidableEq, Repr

/-- The symbolic name of an AttributeType (the name method in src/dmx.rs). -/
def attrTypeName : AttributeType → String
  | .element => "Element"
  | .int => "Int"
  | .float => "Float"
  | .bool => "Bool"
  | .string => "String"
  | .binary => "Binary"
  | .time => "Time"
  | .color => "Color"
  | .vector2 => "Vector2"
  | .vector3 => "Vector3"
  | .vector4 => "Vector4"
  | .qangle => "Qangle"
  | .quaternion => "Quaternion"
  | .vmatrix => "Vmatrix"
  | .uint64 => "Uint64"
  | .uint8 => "Uint8"
  | .elementArray => "ElementArray"
  | .intArray => "IntArray"
  | .floatArray => "FloatArray"
  | .boolArray => "BoolArray"
  | .stringArray => "StringArray"
  | .binaryArray => "BinaryArray"
  | .timeArray => "TimeArray"
  | .colorArray => "ColorArray"
  | .vector2Array => "Vector2Array"
  | .vector3Array => "Vector3Array"
  | .vector4Array => "Vector4Array"
  | .qangleArray => "QangleArray"
  | .quaternionArray => "QuaternionArray"
  | .vmatrixArray => "VmatrixArray"
  | .uint64Array => "Uint64Array"

/-- Decoding one tag byte into an AttributeType, the Readable impl of
src/dmx.rs lines 88 to 127: scalar tags 1 to 16, array tags 33 to 47,
every other byte is an unimplemented-type error carrying the byte. -/
def attributeTypeRead (v : RVariant) (s : Bytes) : Res AttributeType :=
  Res.bind (readU8 v s) fun b rest =>
    match b with
    | 1 => .ok .element rest
    | 2 => .ok .int rest
    | 3 => .ok .float rest
    | 4 => .ok .bool rest
    | 5 => .ok .string rest
    | 6 => .ok .binary rest
    | 7 => .ok .time rest
    | 8 => .ok .color rest
    | 9 => .ok .vector2 rest
    | 10 => .ok .vector3 rest
    | 11 => .ok .vector4 rest
    | 12 => .ok .qangle rest
    | 13 => .ok .quaternion rest
    | 14 => .ok .vmatrix rest
    | 15 => .ok .uint64 rest
    | 16 => .ok .uint8 rest
    | 33 => .ok .elementArray rest
    | 34 => .ok .intArray rest
    | 35 => .ok .floatArray rest
    | 36 => .ok .boolArray rest
    | 37 => .ok .stringArray rest
    | 38 => .ok .binaryArray rest
    | 39 => .ok .timeArray rest
    | 40 => .ok .colorArray rest
    | 41 => .ok .vector2Array rest
    | 42 => .ok .vector3Array rest
    | 43 => .ok .vector4Array rest
    | 44 => .ok .qangleArray rest
    | 45 => .ok .quaternionArray rest
    | 46 => .ok .vmatrixArray rest
    | 47 => .ok .uint64Array rest
    | b => .error (.unsupportedType b)

/-- The Time struct: a signed 32-bit millisecond count. -/
structure DTime where
  millis : Int
deriving DecidableEq, Repr

/-- The Color struct: four signed bytes. -/
structure DColor where
  r : Int
  g : Int
  b : Int
  a : Int
deriving DecidableEq, Repr

/-- The Vector2 struct: two 32-bit floats (kept as bit patterns). -/
structure DVector2 where
  x : Nat
  y : Nat
deriving DecidableEq, Repr

/-- The Vector3 struct: three 32-bit floats. -/
structure DVector3 where
  x : Nat
  y : Nat
  z : Nat
deriving DecidableEq, Repr

/-- The Vector4 struct: four 32-bit floats. -/
structure DVector4 where
  x : Nat
  y : Nat
  z : Nat
  w : Nat
deriving DecidableEq, Repr

/-- The Qangle struct: pitch, yaw, roll as 32-bit floats. -/
structure DQangle where
  pitch : Nat
  yaw : Nat
  roll : Nat
deriving DecidableEq, Repr

/-- The Quaternion struct: four 32-bit floats. -/
structure DQuaternion where
  x : Nat
  y : Nat
  z : Nat
  w : Nat
deriving DecidableEq, Repr

/-- The Vmatrix struct: sixteen 32-bit floats in fixed order. -/
structure DVmatrix where
  m : List Nat
deriving DecidableEq, Repr

/-- Reading Time: one c_int. -/
def timeRead (v : RVariant) (s : Bytes) : Res DTime :=
  Res.bind (readI32 v s) fun n rest => .ok ⟨n⟩ rest

/-- Reading Color: four c_char fields in order r, g, b, a. -/
def colorRead (v : RVariant) (s : Bytes) : Res DColor :=
  Res.bind (readI8 v s) fun r s =>
  Res.bind (readI8 v s) fun g s =>
  Res.bind (readI8 v s) fun b s =>
  Res.bind (readI8 v s) fun a s => .ok ⟨r, g, b, a⟩ s

/-- Reading Vector2: two c_float fields. -/
def vector2Read (v : RVariant) (s : Bytes) : Res DVector2 :=
  Res.bind (readF32 v s) fun x s =>
  Res.bind (readF32 v s) fun y s => .ok ⟨x, y⟩ s

/-- Reading Vector3: three c_float fields. -/
def vector3Read (v : RVariant) (s : Bytes) : Res DVector3 :=
  Res.bind (readF32 v s) fun x s =>
  Res.bind (readF32 v s) fun y s =>
  Res.bind (readF32 v s) fun z s => .ok ⟨x, y, z⟩ s

/-- Reading Vector4: four c_float fields. -/
def vector4Read (v : RVariant) (s : Bytes) : Res DVector4 :=
  Res.bind (readF32 v s) fun x s =>
  Res.bind (readF32 v s) fun y s =>
  Res.bind (readF32 v s) fun z s =>
  Res.bind (readF32 v s) fun w s => .ok ⟨x, y, z, w⟩ s

/-- Reading Qangle: three c_float fields. -/
def qangleRead (v : RVariant) (s : Bytes) : Res DQangle :=
  Res.bind (readF32 v s) fun p s =>
  Res.bind (readF32 v s) fun y s =>
  Res.bind (readF32 v s) fun r s => .ok ⟨p, y, r⟩ s

/-- Reading Quaternion: four c_float fields. -/
def quaternionRead (v : RVariant) (s : Bytes) : Res DQuaternion :=
  Res.bind (readF32 v s) fun x s =>
  Res.bind (readF32 v s) fun y s =>
  Res.bind (readF32 v s) fun z s =>
  Res.bind (readF32 v s) fun w s => .ok ⟨x, y, z, w⟩ s

/-- Reading a fixed count of values with a given element reader, the
collect over an iterator range used throughout src/dmx.rs. -/
def readList {α : Type} (f : Bytes → Res α) : Nat → Bytes → Res (List α)
  | 0, s => .ok [] s
  | n + 1, s =>
    Res.bind (f s) fun a s =>
      Res.bind (readList f n s) fun l rest => .ok (a :: l) rest

/-- Reading Vmatrix: sixteen c_float fields in order. -/
def vmatrixRead (v : RVariant) (s : Bytes) : Res DVmatrix :=
  Res.bind (readList (readF32 v) 16 s) fun l rest => .ok ⟨l⟩ rest

/-- The element count prescribed by a signed 32-bit count: a Rust range
0..size iterates size times when positive and not at all otherwise. -/
def cIntCount (i : Int) : Nat := if i < 0 then 0 else i.toNat

/-- The usize reinterpretation of an i32 (the size as usize cast used for
binary payload lengths): negative values wrap to huge lengths. -/
def usizeOfI32 (i : Int) : Nat := ((i % 2 ^ 64).toNat)

/-- The AttributeValue union of src/dmx.rs, generic over the payload type
of the scalar String variant exactly as the Rust type is generic over R:
element bodies instantiate it with a string-table reference (Int) and
prefix attributes with an inline string (Bytes). Binary payloads and the
strings inside StringArray are always read inline. -/
inductive AttributeValue (σ : Type) where
  | element (i : Int)
  | int (i : Int)
  | float (bits : Nat)
  | bool (b : Bool)
  | string (s : σ)
  | binary (b : Bytes)
  | time (t : DTime)
  | color (c : DColor)
  | vector2 (x : DVector2)
  | vector3 (x : DVector3)
  | vector4 (x : DVector4)
  | qangle (x : DQangle)
  | quaternion (x : DQuaternion)
  | vmatrix (x : DVmatrix)
  | uint64 (n : Nat)
  | uint8 (n : Nat)
  | elementArray (xs : List Int)
  | intArray (xs : List Int)
  | floatArray (xs : List Nat)
  | boolArray (xs : List Bool)
  | stringArray (xs : List Bytes)
  | binaryArray (xs : List Bytes)
  | timeArray (xs : List DTime)
  | colorArray (xs : List DColor)
  | vector2Array (xs : List DVector2)
  | vector3Array (xs : List DVector3)
  | vector4Array (xs : List DVector4)
  | qangleArray (xs : List DQangle)
  | quaternionArray (xs : List DQuaternion)
  | vmatrixArray (xs : List DVmatrix)
  | uint64Array (xs : List Nat)
deriving DecidableEq, Repr

/-- The kind method of AttributeValue: the AttributeType of a value. -/
def AttributeValue.kind {σ : Type} : AttributeValue σ → AttributeType
  | .element _ => .element
  | .int _ => .int
  | .float _ => .float
  | .bool _ => .bool
  | .string _ => .string
  | .binary _ => .binary
  | .time _ => .time
  | .color _ => .color
  | .vector2 _ => .vector2
  | .vector3 _ => .vector3
  | .vector4 _ => .vector4
  | .qangle _ => .qangle
  | .quaternion _ => .quaternion
  | .vmatrix _ => .vmatrix
  | .uint64 _ => .uint64
  | .uint8 _ => .uint8
  | .elementArray _ => .elementArray
  | .intArray _ => .intArray
  | .floatArray _ => .floatArray
  | .boolArray _ => .boolArray
  | .stringArray _ => .stringArray
  | .binaryArray _ => .binaryArray
  | .timeArray _ => .timeArray
  | .colorArray _ => .colorArray
  | .vector2Array _ => .vector2Array
  | .vector3Array _ => .vector3Array
  | .vector4Array _ => .vector4Array
  | .qangleArray _ => .qangleArray
  | .quaternionArray _ => .quaternionArray
  | .vmatrixArray _ => .vmatrixArray
  | .uint64Array _ => .uint64Array

/-- Reading one boolean byte: non-zero is true. -/
def boolRead (v : RVariant) (s : Bytes) : Res Bool :=
  Res.bind (readU8 v s) fun b rest => .ok (b ≠ 0) rest

/-- Reading one u8 value. -/
def uint8Read (v : RVariant) (s : Bytes) : Res Nat := readU8 v s

/-- Reading a length-prefixed binary chunk: c_int size then size-as-usize
raw bytes. -/
def binaryRead (v : RVariant) (s : Bytes) : Res Bytes :=
  Res.bind (readI32 v s) fun size s => readBytes v (usizeOfI32 size) s

/-- Reading a counted list: c_int count then that many elements (a Rust
0..size loop, empty for non-positive counts). -/
def countedRead {α : Type} (v : RVariant) (f : Bytes → Res α) (s : Bytes) :
    Res (List α) :=
  Res.bind (readI32 v s) fun size s => readList f (cIntCount size) s

/-- The AttributeValue decoder of src/dmx.rs lines 531 to 649, generic in
the reader for the scalar String payload (sread) exactly as the Rust impl
is generic in S. Each array kind reads a c_int count then that many
elements by the scalar rule; strings inside arrays are inline strings. -/
def attributeValueRead {σ : Type} (v : RVariant) (sread : Bytes → Res σ)
    (s : Bytes) : Res (AttributeValue σ) :=
  Res.bind (attributeTypeRead v s) fun t s =>
    match t with
    | .element => Res.bind (readI32 v s) fun i r => .ok (.element i) r
    | .int => Res.bind (readI32 v s) fun i r => .ok (.int i) r
    | .float => Res.bind (readF32 v s) fun x r => .ok (.float x) r
    | .bool => Res.bind (boolRead v s) fun b r => .ok (.bool b) r
    | .string => Res.bind (sread s) fun x r => .ok (.string x) r
    | .binary => Res.bind (binaryRead v s) fun b r => .ok (.binary b) r
    | .time => Res.bind (timeRead v s) fun t r => .ok (.time t) r
    | .color => Res.bind (colorRead v s) fun c r => .ok (.color c) r
    | .vector2 => Res.bind (vector2Read v s) fun x r => .ok (.vector2 x) r
    | .vector3 => Res.bind (vector3Read v s) fun x r => .ok (.vector3 x) r
    | .vector4 => Res.bind (vector4Read v s) fun x r => .ok (.vector4 x) r
    | .qangle => Res.bind (qangleRead v s) fun x r => .ok (.qangle x) r
    | .quaternion => Res.bind (quaternionRead v s) fun x r => .ok (.quaternion x) r
    | .vmatrix => Res.bind (vmatrixRead v s) fun x r => .ok (.vmatrix x) r
    | .uint64 => Res.bind (readU64 v s) fun n r => .ok (.uint64 n) r
    | .uint8 => Res.bind (readU8 v s) fun n r => .ok (.uint8 n) r
    | .elementArray =>
      Res.bind (countedRead v (readI32 v) s) fun xs r => .ok (.elementArray xs) r
    | .intArray =>
      Res.bind (countedRead v (readI32 v) s) fun xs r => .ok (.intArray xs) r
    | .floatArray =>
      Res.bind (countedRead v (readF32 v) s) fun xs r => .ok (.floatArray xs) r
    | .boolArray =>
      Res.bind (countedRead v (boolRead v) s) fun xs r => .ok (.boolArray xs) r
    | .stringArray =>
      Res.bind (countedRead v (stringRead v) s) fun xs r => .ok (.stringArray xs) r
    | .binaryArray =>
      Res.bind (countedRead v (binaryRead v) s) fun xs r => .ok (.binaryArray xs) r
    | .timeArray =>
      Res.bind (countedRead v (timeRead v) s) fun xs r => .ok (.timeArray xs) r
    | .colorArray =>
      Res.bind (countedRead v (colorRead v) s) fun xs r => .ok (.colorArray xs) r
    | .vector2Array =>
      Res.bind (countedRead v (vector2Read v) s) fun xs r => .ok (.vector2Array xs) r
    | .vector3Array =>
      Res.bind (countedRead v (vector3Read v) s) fun xs r => .ok (.vector3Array xs) r
    | .vector4Array =>
      Res.bind (countedRead v (vector4Read v) s) fun xs r => .ok (.vector4Array xs) r
    | .qangleArray =>
      Res.bind (countedRead v (qangleRead v) s) fun xs r => .ok (.qangleArray xs) r
    | .quaternionArray =>
      Res.bind (countedRead v (quaternionRead v) s) fun xs r => .ok (.quaternionArray xs) r
    | .vmatrixArray =>
      Res.bind (countedRead v (vmatrixRead v) s) fun xs r => .ok (.vmatrixArray xs) r
    | .uint64Array =>
      Res.bind (countedRead v (readU64 v) s) fun xs r => .ok (.uint64Array xs) r

/-- ASCII bytes of the literal header token before the encoding name. -/
def openToken : Bytes :=
  [60, 33, 45, 45, 32, 100, 109, 120, 32, 101, 110, 99, 111, 100, 105, 110, 103, 32]

/-- ASCII bytes of the literal token between versions and the format name. -/
def formatToken : Bytes := [32, 102, 111, 114, 109, 97, 116, 32]

/-- ASCII bytes of the literal closing token of the header line. -/
def closeToken : Bytes := [32, 45, 45, 62, 10]

/-- ASCII bytes of the only supported encoding name. -/
def binaryBytes : Bytes := [98, 105, 110, 97, 114, 121]

/-- The trim_start helper of FileHeader::read: asserts the value starts
with the literal token (a crash otherwise) and drops it in place. The
second component of the outcome is the remaining header-line text. -/
def trimStart (head value : Bytes) : Res Unit :=
  if value.take head.length = head then .ok () (value.drop head.length)
  else .crash

/-- The split_at helper of FileHeader::read: finds the first occurrence of
the separator (an error value when absent), returns the text before it and
keeps the separator and everything after it as the remaining text. -/
def splitAtSep (sep : Nat) (value : Bytes) : Res Bytes :=
  match value.findIdx? (fun b => b = sep) with
  | some i => .ok (value.take i) (value.drop i)
  | none => .error (.separatorNotFound sep)

/-- Whether a byte is an ASCII decimal digit. -/
def isDigit (b : Nat) : Bool := 48 ≤ b && b ≤ 57

/-- Decimal value of a digit run; none when empty or any non-digit occurs. -/
def digitsVal : Bytes → Option Nat
  | [] => none
  | bs => bs.foldl
      (fun acc b =>
        match acc with
        | none => none
        | some n => if isDigit b then some (n * 10 + (b - 48)) else none)
      (some 0)

/-- The i32 from_str parser used for the version fields: optional sign,
at least one digit, all digits, in-range for i32. -/
def parseI32Str (s : Bytes) : Except DmxError Int :=
  let signed : Bool × Bytes :=
    match s with
    | 43 :: rest => (false, rest)
    | 45 :: rest => (true, rest)
    | _ => (false, s)
  match digitsVal signed.2 with
  | none => .error .parseIntError
  | some n =>
    let val : Int := if signed.1 then -(n : Int) else (n : Int)
    if -(2 ^ 31) ≤ val ∧ val < 2 ^ 31 then .ok val else .error .parseIntError

/-- Lifting an i32 parse into the value-threaded header parser. -/
def liftParse (bs value : Bytes) : Res Int :=
  match parseI32Str bs with
  | .ok n => .ok n value
  | .error e => .error e

/-- The FileHeader struct: encoding and format names and versions. -/
structure DFileHeader where
  encoding_name : Bytes
  encoding_version : Int
  format_name : Bytes
  format_version : Int
deriving DecidableEq, Repr

/-- Parsing the header line text by locating the literal tokens in exact
order, as FileHeader::read does after reading the NUL-terminated line. -/
def headerLineParse (value : Bytes) : Res DFileHeader :=
  Res.bind (trimStart openToken value) fun _ value =>
  Res.bind (splitAtSep 32 value) fun ename value =>
  Res.bind (trimStart [32] value) fun _ value =>
  Res.bind (splitAtSep 32 value) fun ever value =>
  Res.bind (liftParse ever value) fun evern value =>
  Res.bind (trimStart formatToken value) fun _ value =>
  Res.bind (splitAtSep 32 value) fun fname value =>
  Res.bind (trimStart [32] value) fun _ value =>
  Res.bind (splitAtSep 32 value) fun fver value =>
  Res.bind (liftParse fver value) fun fvern value =>
  Res.bind (trimStart closeToken value) fun _ value =>
  .ok ⟨ename, evern, fname, fvern⟩ value

/-- Reading the FileHeader: one NUL-terminated string, then the in-place
token trims and splits of FileHeader::read. -/
def fileHeaderRead (v : RVariant) (s : Bytes) : Res DFileHeader :=
  Res.bind (stringRead v s) fun line rest =>
    match headerLineParse line with
    | .ok h _ => .ok h rest
    | .error e => .error e
    | .crash => .crash

/-- The ElementHeader struct: type and name string references and a
16-byte guid. -/
structure DHeader where
  type_ : Int
  name : Int
  guid : Bytes
deriving DecidableEq, Repr

/-- Reading one ElementHeader: two StringRefs then 16 raw bytes. -/
def headerRead (v : RVariant) (s : Bytes) : Res DHeader :=
  Res.bind (readI32 v s) fun t s =>
  Res.bind (readI32 v s) fun n s =>
  Res.bind (readBytes v 16 s) fun g s => .ok ⟨t, n, g⟩ s

/-- One body attribute: a StringRef name and a value whose scalar String
payload is itself a StringRef (the Rust instantiation with R equal to
StringRef). -/
structure DAttribute where
  name : Int
  value : AttributeValue Int
deriving DecidableEq, Repr

/-- Reading one attribute: StringRef name, then the value with the
AttributeError context carrying the raw name on failure. -/
def attributeRead (v : RVariant) (s : Bytes) : Res DAttribute :=
  Res.bind (readI32 v s) fun name s =>
    match attributeValueRead v (readI32 v) s with
    | .ok val s2 => .ok ⟨name, val⟩ s2
    | .error e => .error (.attributeContext name none e)
    | .crash => .crash

/-- An ElementBody: the ordered attribute list. -/
structure DBody where
  attributes : List DAttribute
deriving DecidableEq, Repr

/-- Reading one ElementBody: c_int attribute count then that many
attributes. -/
def bodyRead (v : RVariant) (s : Bytes) : Res DBody :=
  Res.bind (countedRead v (attributeRead v) s) fun l r => .ok ⟨l⟩ r

/-- Reading one prefix attribute: an inline NUL-terminated name, then the
value with inline String payloads (the Rust instantiation with R equal to
the reader string type), with the failure context carrying the name. -/
def prefixAttrRead (v : RVariant) (s : Bytes) : Res (Bytes × AttributeValue Bytes) :=
  Res.bind (stringRead v s) fun name s =>
    match attributeValueRead v (stringRead v) s with
    | .ok val r => .ok (name, val) r
    | .error e => .error (.prefixAttributeContext name e)
    | .crash => .crash

/-- The decoded File document. -/
structure DFile where
  header : DFileHeader
  prefixAttrs : List (Bytes × AttributeValue Bytes)
  strings : List Bytes
  headers : List DHeader
  bodies : List DBody
deriving DecidableEq, Repr

/-- The error enrichment applied to a failing bodies section in
File::read: if the error is an unresolved AttributeError, its name is
resolved through the string table by an unchecked usize cast and Vec
index (a crash when the reference is negative or out of range). -/
def enrichBodiesError (strings : List Bytes) : Res (List DBody) → Res (List DBody)
  | .error (.attributeContext name none inner) =>
    let idx := usizeOfI32 name
    if h : idx < strings.length then
      .error (.attributeContext name (some (strings.get ⟨idx, h⟩)) inner)
    else .crash
  | r => r

/-- The File::read decoder of src/dmx.rs lines 143 to 191: header line,
assertions pinning the supported profile (encoding name binary, encoding
version 9; a failed assertion is a crash, not a returned error), reserved
field, prefix attributes, string table, element headers, element bodies
(the element count is read once and used for both sections). -/
def fileRead (v : RVariant) (s : Bytes) : Res DFile :=
  Res.bind (fileHeaderRead v s) fun header s =>
  if header.encoding_name = binaryBytes then
    if header.encoding_version = 9 then
      Res.bind (readI32 v s) fun _padding s =>
      Res.bind (countedRead v (prefixAttrRead v) s) fun prefixAttrs s =>
      Res.bind (countedRead v (stringRead v) s) fun strings s =>
      Res.bind (readI32 v s) fun n_elements s =>
      Res.bind (readList (headerRead v) (cIntCount n_elements) s) fun headers s =>
      match enrichBodiesError strings (readList (bodyRead v) (cIntCount n_elements) s) with
      | .ok bodies r => .ok ⟨header, prefixAttrs, strings, headers, bodies⟩ r
      | .error e => .error e
      | .crash => .crash
    else .crash
  else .crash

/-- Outcome of one materialization step: a produced value, an absent
value (the visitor's visit_none), a serde error value, or a crash. -/
inductive MRes (α : Type) where
  | ok (a : α)
  | absent
  | error
  | crash
deriving DecidableEq, Repr

/-- The StringRef index method: i32 to usize conversion, none exactly for
negative references (the absent sentinel). -/
def stringRefIndex (i : Int) : Option Nat := if 0 ≤ i then some i.toNat else none

/-- Rust Vec indexing, which panics (crash) when out of bounds. -/
def vecIndex {α : Type} (xs : List α) (i : Nat) : MRes α :=
  if h : i < xs.length then .ok (xs.get ⟨i, h⟩) else .crash

/-- The StringDeserializer deserialize_any of src/serde.rs: a negative
reference visits none; a non-negative one indexes the string table
without a bounds check. -/
def stringDeserializeAny (strings : List Bytes) (index : Int) : MRes Bytes :=
  match stringRefIndex index with
  | some i => vecIndex strings i
  | none => .absent

/-- The ElementDeserializer variant_seed of src/serde.rs: the element
index is unwrapped to usize (a crash for negatives), the element header
is fetched without a bounds check, and the discriminant is the header's
type name resolved as a StringDeserializer would. -/
def elementVariantSeed (strings : List Bytes) (headers : List DHeader)
    (index : Int) : MRes Bytes :=
  match stringRefIndex index with
  | none => .crash
  | some i =>
    match vecIndex headers i with
    | .ok head => stringDeserializeAny strings head.type_
    | .absent => .absent
    | .error => .error
    | .crash => .crash

/-- One next_key_seed step of the AttributesDeserializer: fetch the body
(unchecked Vec index), stop cleanly past the last attribute or at a
negative name reference, otherwise resolve the name through the string
table without a bounds check. -/
def attributesNextKey (strings : List Bytes) (bodies : List DBody)
    (index attr : Nat) : MRes (Option Bytes) :=
  match vecIndex bodies index with
  | .ok body =>
    if h : attr < body.attributes.length then
      let a := body.attributes.get ⟨attr, h⟩
      match stringRefIndex a.name with
      | some i =>
        match vecIndex strings i with
        | .ok key => .ok (some key)
        | .absent => .absent
        | .error => .error
        | .crash => .crash
      | none => .ok none
    else .ok none
  | .absent => .absent
  | .error => .error
  | .crash => .crash

/-- The full key and value enumeration driven by the AttributesDeserializer
map access: attributes are visited in declaration order, enumeration ends
at the end of the body or at the first negative name reference, and each
resolved key is paired with the raw attribute value handed to the caller
seed. -/
def attributesEntries (strings : List Bytes) :
    List DAttribute → MRes (List (Bytes × AttributeValue Int))
  | [] => .ok []
  | a :: rest =>
    match stringRefIndex a.name with
    | none => .ok []
    | some i =>
      match vecIndex strings i with
      | .ok key =>
        match attributesEntries strings rest with
        | .ok l => .ok ((key, a.value) :: l)
        | .absent => .absent
        | .error => .error
        | .crash => .crash
      | .absent => .absent
      | .error => .error
      | .crash => .crash

/-- The ElementDeserializer deserialize_any of src/serde.rs: a negative
element index visits none; otherwise the element is materialized as the
ordered mapping enumerated by the AttributesDeserializer (the body fetch
is an unchecked Vec index). -/
def elementAsMap (strings : List Bytes) (bodies : List DBody) (index : Int) :
    MRes (List (Bytes × AttributeValue Int)) :=
  match stringRefIndex index with
  | some i =>
    match vecIndex bodies i with
    | .ok body => attributesEntries strings body.attributes
    | .absent => .absent
    | .error => .error
    | .crash => .crash
  | none => .absent

/-- Presence outcome of an optional materialization request. -/
inductive OptOutcome where
  | present
  | absent
deriving DecidableEq, Repr

/-- The ValueDeserializer deserialize_option of src/serde.rs: String
values delegate to the StringDeserializer (present exactly for a
non-negative reference), Element values delegate to the
ElementDeserializer (present exactly for a non-negative index), every
other kind always visits some. -/
def valueDeserializeOption (value : AttributeValue Int) : OptOutcome :=
  match value with
  | .string i => if 0 ≤ i then .present else .absent
  | .element i => if 0 ≤ i then .present else .absent
  | _ => .present

/-- Result of tagged-union dispatch over an attribute value. -/
inductive EnumDispatch where
  /-- The wire value was an Element: the discriminant is the resolution
  of the element header's type name, and the payload is re-materialized
  from the same element index. -/
  | fromElement (disc : MRes Bytes) (index : Int)
  /-- The wire value was a scalar or array: the discriminant is the
  symbolic kind name and the payload is re-materialized from the same
  underlying value. -/
  | fromKind (disc : String) (value : AttributeValue Int)
deriving DecidableEq, Repr

/-- The ValueDeserializer deserialize_enum of src/serde.rs together with
the two EnumAccess impls: an Element value delegates to the
ElementDeserializer (none for a negative index, otherwise the
variant_seed header lookup and type-name discriminant, with the same
element as the variant payload through newtype_variant_seed); any other
value visits itself as the enum, with the kind name as discriminant and
the same value as payload. -/
def valueDeserializeEnum (strings : List Bytes) (headers : List DHeader)
    (value : AttributeValue Int) : MRes EnumDispatch :=
  match value with
  | .element index =>
    if 0 ≤ index then
      match elementVariantSeed strings headers index with
      | .crash => .crash
      | d => .ok (.fromElement d index)
    else .absent
  | v => .ok (.fromKind (attrTypeName v.kind) v)

/-- Little-endian encoding of a value into a fixed number of bytes. -/
def toLE : Nat → Nat → Bytes
  | 0, _ => []
  | k + 1, n => n % 256 :: toLE k (n / 256)

/-- Modelled from the spec: canonical little-endian encoding of a signed
32-bit integer (two's complement), per the binary-layout section. The
repository has no write path, so the encoder side of the round-trip
property is taken from the spec. -/
def encodeI32 (i : Int) : Bytes := toLE 4 ((i % 2 ^ 32).toNat)

/-- Modelled from the spec: canonical encoding of an unsigned 8-bit
integer. -/
def encodeU8 (n : Nat) : Bytes := toLE 1 n

/-- Modelled from the spec: canonical encoding of a signed byte (two's
complement). -/
def encodeI8 (i : Int) : Bytes := toLE 1 ((i % 2 ^ 8).toNat)

/-- Modelled from the spec: canonical encoding of an unsigned 64-bit
integer. -/
def encodeU64 (n : Nat) : Bytes := toLE 8 n

/-- Modelled from the spec: canonical NUL-terminated string encoding. -/
def encodeString (s : Bytes) : Bytes := s ++ [0]

/-- Modelled from the spec: canonical length-prefixed binary chunk. -/
def encodeBinary (b : Bytes) : Bytes := encodeI32 (b.length : Int) ++ b

/-- Modelled from the spec: canonical encoding of an array payload as a
4-byte signed count followed by each element's own encoding. -/
def encodeArray {α : Type} (f : α → Bytes) (xs : List α) : Bytes :=
  encodeI32 (xs.length : Int) ++ (xs.map f).flatten

/-- Modelled from the spec (sections 4.2 and 6): the canonical binary
encoding of a tagged attribute value — the tag byte, then the payload by
the kind's own rule. Generic in the scalar String payload encoder exactly
as the decoder is generic in its reader. -/
def encodeAttributeValue {σ : Type} (sencode : σ → Bytes) :
    AttributeValue σ → Bytes
  | .element i => 1 :: encodeI32 i
  | .int i => 2 :: encodeI32 i
  | .float b => 3 :: toLE 4 b
  | .bool b => 4 :: [if b then 1 else 0]
  | .string x => 5 :: sencode x
  | .binary b => 6 :: encodeBinary b
  | .time t => 7 :: encodeI32 t.millis
  | .color c => 8 :: (encodeI8 c.r ++ encodeI8 c.g ++ encodeI8 c.b ++ encodeI8 c.a)
  | .vector2 x => 9 :: (toLE 4 x.x ++ toLE 4 x.y)
  | .vector3 x => 10 :: (toLE 4 x.x ++ toLE 4 x.y ++ toLE 4 x.z)
  | .vector4 x => 11 :: (toLE 4 x.x ++ toLE 4 x.y ++ toLE 4 x.z ++ toLE 4 x.w)
  | .qangle x => 12 :: (toLE 4 x.pitch ++ toLE 4 x.yaw ++ toLE 4 x.roll)
  | .quaternion x => 13 :: (toLE 4 x.x ++ toLE 4 x.y ++ toLE 4 x.z ++ toLE 4 x.w)
  | .vmatrix x => 14 :: (x.m.map (toLE 4)).flatten
  | .uint64 n => 15 :: encodeU64 n
  | .uint8 n => 16 :: encodeU8 n
  | .elementArray xs => 33 :: encodeArray encodeI32 xs
  | .intArray xs => 34 :: encodeArray encodeI32 xs
  | .floatArray xs => 35 :: encodeArray (toLE 4) xs
  | .boolArray xs => 36 :: encodeArray (fun b => [if b then 1 else 0]) xs
  | .stringArray xs => 37 :: encodeArray encodeString xs
  | .binaryArray xs => 38 :: encodeArray encodeBinary xs
  | .timeArray xs => 39 :: encodeArray (fun t => encodeI32 t.millis) xs
  | .colorArray xs =>
    40 :: encodeArray
      (fun c => encodeI8 c.r ++ encodeI8 c.g ++ encodeI8 c.b ++ encodeI8 c.a) xs
  | .vector2Array xs => 41 :: encodeArray (fun x => toLE 4 x.x ++ toLE 4 x.y) xs
  | .vector3Array xs =>
    42 :: encodeArray (fun x => toLE 4 x.x ++ toLE 4 x.y ++ toLE 4 x.z) xs
  | .vector4Array xs =>
    43 :: encodeArray (fun x => toLE 4 x.x ++ toLE 4 x.y ++ toLE 4 x.z ++ toLE 4 x.w) xs
  | .qangleArray xs =>
    44 :: encodeArray (fun x => toLE 4 x.pitch ++ toLE 4 x.yaw ++ toLE 4 x.roll) xs
  | .quaternionArray xs =>
    45 :: encodeArray (fun x => toLE 4 x.x ++ toLE 4 x.y ++ toLE 4 x.z ++ toLE 4 x.w) xs
  | .vmatrixArray xs => 46 :: encodeArray (fun x => (x.m.map (toLE 4)).flatten) xs
  | .uint64Array xs => 47 :: encodeArray encodeU64 xs

/-- The i32 range constraint of a well-formed signed 32-bit value. -/
def i32Range (i : Int) : Prop := -(2 ^ 31) ≤ i ∧ i < 2 ^ 31

/-- The i8 range constraint of a well-formed signed byte value. -/
def i8Range (i : Int) : Prop := -(2 ^ 7) ≤ i ∧ i < 2 ^ 7

/-- Well-formedness of an inline string payload: no embedded NUL and
valid UTF-8, so that its canonical encoding decodes back to it. -/
def strWf (s : Bytes) : Prop := ¬ 0 ∈ s ∧ utf8Valid s = true

/-- Well-formedness of a color: four in-range signed bytes. -/
def colorWf (c : DColor) : Prop :=
  i8Range c.r ∧ i8Range c.g ∧ i8Range c.b ∧ i8Range c.a

/-- Well-formedness of a matrix: sixteen 32-bit float patterns. -/
def vmatrixWf (x : DVmatrix) : Prop :=
  x.m.length = 16 ∧ ∀ b ∈ x.m, b < 2 ^ 32

/-- Array length representable as a non-negative i32 count. -/
def lenWf {α : Type} (xs : List α) : Prop := (xs.length : Int) < 2 ^ 31

/-- Well-formedness of a value for the round-trip property, parameterized
by the well-formedness of the scalar String payload. -/
def wfValue {σ : Type} (PS : σ → Prop) : AttributeValue σ → Prop
  | .element i => i32Range i
  | .int i => i32Range i
  | .float b => b < 2 ^ 32
  | .bool _ => True
  | .string x => PS x
  | .binary b => lenWf b
  | .time t => i32Range t.millis
  | .color c => colorWf c
  | .vector2 x => x.x < 2 ^ 32 ∧ x.y < 2 ^ 32
  | .vector3 x => x.x < 2 ^ 32 ∧ x.y < 2 ^ 32 ∧ x.z < 2 ^ 32
  | .vector4 x => x.x < 2 ^ 32 ∧ x.y < 2 ^ 32 ∧ x.z < 2 ^ 32 ∧ x.w < 2 ^ 32
  | .qangle x => x.pitch < 2 ^ 32 ∧ x.yaw < 2 ^ 32 ∧ x.roll < 2 ^ 32
  | .quaternion x => x.x < 2 ^ 32 ∧ x.y < 2 ^ 32 ∧ x.z < 2 ^ 32 ∧ x.w < 2 ^ 32
  | .vmatrix x => vmatrixWf x
  | .uint64 n => n < 2 ^ 64
  | .uint8 n => n < 2 ^ 8
  | .elementArray xs => lenWf xs ∧ ∀ i ∈ xs, i32Range i
  | .intArray xs => lenWf xs ∧ ∀ i ∈ xs, i32Range i
  | .floatArray xs => lenWf xs ∧ ∀ b ∈ xs, b < 2 ^ 32
  | .boolArray xs => lenWf xs
  | .stringArray xs => lenWf xs ∧ ∀ s ∈ xs, strWf s
  | .binaryArray xs => lenWf xs ∧ ∀ b ∈ xs, lenWf b
  | .timeArray xs => lenWf xs ∧ ∀ t ∈ xs, i32Range t.millis
  | .colorArray xs => lenWf xs ∧ ∀ c ∈ xs, colorWf c
  | .vector2Array xs => lenWf xs ∧ ∀ x ∈ xs, x.x < 2 ^ 32 ∧ x.y < 2 ^ 32
  | .vector3Array xs => lenWf xs ∧ ∀ x ∈ xs, x.x < 2 ^ 32 ∧ x.y < 2 ^ 32 ∧ x.z < 2 ^ 32
  | .vector4Array xs =>
    lenWf xs ∧ ∀ x ∈ xs, x.x < 2 ^ 32 ∧ x.y < 2 ^ 32 ∧ x.z < 2 ^ 32 ∧ x.w < 2 ^ 32
  | .qangleArray xs =>
    lenWf xs ∧ ∀ x ∈ xs, x.pitch < 2 ^ 32 ∧ x.yaw < 2 ^ 32 ∧ x.roll < 2 ^ 32
  | .quaternionArray xs =>
    lenWf xs ∧ ∀ x ∈ xs, x.x < 2 ^ 32 ∧ x.y < 2 ^ 32 ∧ x.z < 2 ^ 32 ∧ x.w < 2 ^ 32
  | .vmatrixArray xs => lenWf xs ∧ ∀ x ∈ xs, vmatrixWf x
  | .uint64Array xs => lenWf xs ∧ ∀ n ∈ xs, n < 2 ^ 64

/-- Modelled from the spec: the 16 scalar kinds in the fixed order of
section 3. -/
def scalarKindTable : List AttributeType :=
  [.element, .int, .float, .bool, .string, .binary, .time, .color,
   .vector2, .vector3, .vector4, .qangle, .quaternion, .vmatrix,
   .uint64, .uint8]

/-- The array kinds actually declared by the source, in tag order 33 to
47 (there are only fifteen: Uint8 has no array counterpart). -/
def arrayKindTable : List AttributeType :=
  [.elementArray, .intArray, .floatArray, .boolArray, .stringArray,
   .binaryArray, .timeArray, .colorArray, .vector2Array, .vector3Array,
   .vector4Array, .qangleArray, .quaternionArray, .vmatrixArray,
   .uint64Array]

/-- Modelled from the spec: arithmetic description of the tag space —
scalar tags 1 to 16 in the fixed order, array tags as scalar tag plus 32
for the declared array kinds, nothing else. -/
def specTagAssign (b : Nat) : Option AttributeType :=
  if 1 ≤ b ∧ b ≤ 16 then scalarKindTable.get? (b - 1)
  else if 33 ≤ b ∧ b ≤ 47 then arrayKindTable.get? (b - 33)
  else none
theorem toLE_length (k n : Nat) : (toLE k n).length = k := by
  induction k generalizing n with
  | zero => rfl
  | succ k ih => simp [toLE, ih]

theorem fromLE_toLE (k n : Nat) : fromLE (toLE k n) = n % 256 ^ k := by
  induction k generalizing n with
  | zero =>
    simp only [toLE, fromLE, List.foldr, pow_zero, Nat.mod_one]
  | succ k ih =>
    show n % 256 + 256 * fromLE (toLE k (n / 256)) = n % 256 ^ (k + 1)
    rw [ih, pow_succ', Nat.mod_mul]

theorem readBytes_exact (v : RVariant) (xs rest : Bytes) :
    readBytes v xs.length (xs ++ rest) = .ok xs rest := by
  unfold readBytes
  rw [if_pos (by simp)]
  simp

theorem readBytes_len (v : RVariant) (n : Nat) (xs rest : Bytes)
    (h : xs.length = n) : readBytes v n (xs ++ rest) = .ok xs rest := by
  subst h
  exact readBytes_exact v xs rest

theorem asInt32_emod (i : Int) (h1 : -(2 ^ 31) ≤ i) (h2 : i < 2 ^ 31) :
    asInt32 ((i % 2 ^ 32).toNat) = i := by
  simp only [asInt32]
  split <;> omega

theorem asInt8_emod (i : Int) (h1 : -(2 ^ 7) ≤ i) (h2 : i < 2 ^ 7) :
    asInt8 ((i % 2 ^ 8).toNat) = i := by
  simp only [asInt8]
  split <;> omega

theorem readI32_encode (v : RVariant) (i : Int) (rest : Bytes)
    (h : i32Range i) : readI32 v (encodeI32 i ++ rest) = .ok i rest := by
  unfold readI32 encodeI32
  rw [readBytes_len v 4 _ rest (toLE_length _ _)]
  simp only [Res.bind]
  rw [fromLE_toLE]
  have h4 : ((i % 2 ^ 32).toNat) % 256 ^ 4 = (i % 2 ^ 32).toNat := by omega
  rw [h4, asInt32_emod i h.1 h.2]

theorem readF32_encode (v : RVariant) (b : Nat) (rest : Bytes)
    (h : b < 2 ^ 32) : readF32 v (toLE 4 b ++ rest) = .ok b rest := by
  unfold readF32
  rw [readBytes_len v 4 (toLE 4 b) rest (toLE_length _ _)]
  show Res.ok (fromLE (toLE 4 b) % 2 ^ 32) rest = _
  rw [fromLE_toLE]
  congr 1
  omega

theorem readU64_encode (v : RVariant) (n : Nat) (rest : Bytes)
    (h : n < 2 ^ 64) : readU64 v (encodeU64 n ++ rest) = .ok n rest := by
  unfold readU64 encodeU64
  rw [readBytes_len v 8 (toLE 8 n) rest (toLE_length _ _)]
  show Res.ok (fromLE (toLE 8 n) % 2 ^ 64) rest = _
  rw [fromLE_toLE]
  congr 1
  omega

theorem readU8_encode (v : RVariant) (n : Nat) (rest : Bytes)
    (h : n < 2 ^ 8) : readU8 v (encodeU8 n ++ rest) = .ok n rest := by
  unfold readU8 encodeU8
  rw [readBytes_len v 1 (toLE 1 n) rest (toLE_length _ _)]
  show Res.ok (fromLE (toLE 1 n) % 2 ^ 8) rest = _
  rw [fromLE_toLE]
  congr 1
  omega

theorem readI8_encode (v : RVariant) (i : Int) (rest : Bytes)
    (h : i8Range i) : readI8 v (encodeI8 i ++ rest) = .ok i rest := by
  unfold readI8 encodeI8
  rw [readBytes_len v 1 _ rest (toLE_length _ _)]
  simp only [Res.bind]
  rw [fromLE_toLE]
  have h4 : ((i % 2 ^ 8).toNat) % 256 ^ 1 = (i % 2 ^ 8).toNat := by omega
  rw [h4, asInt8_emod i h.1 h.2]

theorem boolRead_encode (v : RVariant) (b : Bool) (rest : Bytes) :
    boolRead v ((if b then 1 else 0) :: rest) = .ok b rest := by
  cases b
  · show boolRead v (encodeU8 0 ++ rest) = .ok false rest
    unfold boolRead
    rw [readU8_encode v 0 rest (by norm_num)]
    rfl
  · show boolRead v (encodeU8 1 ++ rest) = .ok true rest
    unfold boolRead
    rw [readU8_encode v 1 rest (by norm_num)]
    rfl

theorem Res.bind_ok {α β : Type} (a : α) (rest : Bytes) (f : α → Bytes → Res β) :
    Res.bind (.ok a rest) f = f a rest := rfl

theorem readUntil_found (v : RVariant) (d : Nat) (pre post : Bytes)
    (h : ¬ d ∈ pre) : readUntil v d (pre ++ d :: post) = .ok (pre ++ [d]) post := by
  induction pre with
  | nil => simp [readUntil]
  | cons b bs ih =>
    have hb : ¬ b = d := fun e => h (by simp [e])
    have hd : ¬ d ∈ bs := fun e => h (by simp [e])
    show readUntil v d (b :: (bs ++ d :: post)) = .ok (b :: (bs ++ [d])) post
    simp only [readUntil, if_neg hb, ih hd]

theorem readUntil_absent_slice (d : Nat) (s : Bytes) (h : ¬ d ∈ s) :
    readUntil .slice d s = .error (.delimiterNotFound d) := by
  induction s with
  | nil => rfl
  | cons b bs ih =>
    have hb : ¬ b = d := fun e => h (by simp [e])
    have hd : ¬ d ∈ bs := fun e => h (by simp [e])
    simp only [readUntil, if_neg hb, ih hd]

theorem readUntil_absent_stream (d : Nat) (s : Bytes) (h : ¬ d ∈ s) :
    readUntil .stream d s = .ok s [] := by
  induction s with
  | nil => rfl
  | cons b bs ih =>
    have hb : ¬ b = d := fun e => h (by simp [e])
    have hd : ¬ d ∈ bs := fun e => h (by simp [e])
    simp only [readUntil, if_neg hb, ih hd]

theorem stringRead_encode (v : RVariant) (s rest : Bytes) (h : strWf s) :
    stringRead v (encodeString s ++ rest) = .ok s rest := by
  unfold stringRead encodeString
  have he : (s ++ [0]) ++ rest = s ++ 0 :: rest := by simp
  rw [he, readUntil_found v 0 s rest h.1]
  cases v
  · simp [List.dropLast_concat, h.2]
  · simp [List.dropLast_concat, h.2]

theorem timeRead_encode (v : RVariant) (t : DTime) (rest : Bytes)
    (h : i32Range t.millis) :
    timeRead v (encodeI32 t.millis ++ rest) = .ok t rest := by
  unfold timeRead
  rw [readI32_encode v _ _ h]
  rfl

theorem colorRead_encode (v : RVariant) (c : DColor) (rest : Bytes)
    (h : colorWf c) :
    colorRead v ((encodeI8 c.r ++ encodeI8 c.g ++ encodeI8 c.b ++ encodeI8 c.a) ++ rest) =
      .ok c rest := by
  unfold colorRead
  simp only [List.append_assoc]
  rw [readI8_encode v _ _ h.1]
  simp only [Res.bind_ok]
  rw [readI8_encode v _ _ h.2.1]
  simp only [Res.bind_ok]
  rw [readI8_encode v _ _ h.2.2.1]
  simp only [Res.bind_ok]
  rw [readI8_encode v _ _ h.2.2.2]
  rfl

theorem vector2Read_encode (v : RVariant) (x : DVector2) (rest : Bytes)
    (h : x.x < 2 ^ 32 ∧ x.y < 2 ^ 32) :
    vector2Read v ((toLE 4 x.x ++ toLE 4 x.y) ++ rest) = .ok x rest := by
  unfold vector2Read
  simp only [List.append_assoc]
  rw [readF32_encode v _ _ h.1]
  simp only [Res.bind_ok]
  rw [readF32_encode v _ _ h.2]
  rfl

theorem vector3Read_encode (v : RVariant) (x : DVector3) (rest : Bytes)
    (h : x.x < 2 ^ 32 ∧ x.y < 2 ^ 32 ∧ x.z < 2 ^ 32) :
    vector3Read v ((toLE 4 x.x ++ toLE 4 x.y ++ toLE 4 x.z) ++ rest) = .ok x rest := by
  unfold vector3Read
  simp only [List.append_assoc]
  rw [readF32_encode v _ _ h.1]
  simp only [Res.bind_ok]
  rw [readF32_encode v _ _ h.2.1]
  simp only [Res.bind_ok]
  rw [readF32_encode v _ _ h.2.2]
  rfl

theorem vector4Read_encode (v : RVariant) (x : DVector4) (rest : Bytes)
    (h : x.x < 2 ^ 32 ∧ x.y < 2 ^ 32 ∧ x.z < 2 ^ 32 ∧ x.w < 2 ^ 32) :
    vector4Read v ((toLE 4 x.x ++ toLE 4 x.y ++ toLE 4 x.z ++ toLE 4 x.w) ++ rest) =
      .ok x rest := by
  unfold vector4Read
  simp only [List.append_assoc]
  rw [readF32_encode v _ _ h.1]
  simp only [Res.bind_ok]
  rw [readF32_encode v _ _ h.2.1]
  simp only [Res.bind_ok]
  rw [readF32_encode v _ _ h.2.2.1]
  simp only [Res.bind_ok]
  rw [readF32_encode v _ _ h.2.2.2]
  rfl

theorem qangleRead_encode (v : RVariant) (x : DQangle) (rest : Bytes)
    (h : x.pitch < 2 ^ 32 ∧ x.yaw < 2 ^ 32 ∧ x.roll < 2 ^ 32) :
    qangleRead v ((toLE 4 x.pitch ++ toLE 4 x.yaw ++ toLE 4 x.roll) ++ rest) =
      .ok x rest := by
  unfold qangleRead
  simp only [List.append_assoc]
  rw [readF32_encode v _ _ h.1]
  simp only [Res.bind_ok]
  rw [readF32_encode v _ _ h.2.1]
  simp only [Res.bind_ok]
  rw [readF32_encode v _ _ h.2.2]
  rfl

theorem quaternionRead_encode (v : RVariant) (x : DQuaternion) (rest : Bytes)
    (h : x.x < 2 ^ 32 ∧ x.y < 2 ^ 32 ∧ x.z < 2 ^ 32 ∧ x.w < 2 ^ 32) :
    quaternionRead v ((toLE 4 x.x ++ toLE 4 x.y ++ toLE 4 x.z ++ toLE 4 x.w) ++ rest) =
      .ok x rest := by
  unfold quaternionRead
  simp only [List.append_assoc]
  rw [readF32_encode v _ _ h.1]
  simp only [Res.bind_ok]
  rw [readF32_encode v _ _ h.2.1]
  simp only [Res.bind_ok]
  rw [readF32_encode v _ _ h.2.2.1]
  simp only [Res.bind_ok]
  rw [readF32_encode v _ _ h.2.2.2]
  rfl

theorem readList_zero {α : Type} (f : Bytes → Res α) (s : Bytes) :
    readList f 0 s = .ok [] s := rfl

theorem readList_succ {α : Type} (f : Bytes → Res α) (n : Nat) (s : Bytes) :
    readList f (n + 1) s =
      Res.bind (f s) fun a s2 =>
        Res.bind (readList f n s2) fun l rest => .ok (a :: l) rest := rfl

theorem readList_encode {α : Type} (f : Bytes → Res α) (g : α → Bytes)
    (xs : List α) (rest : Bytes)
    (h : ∀ x ∈ xs, ∀ r, f (g x ++ r) = .ok x r) :
    readList f xs.length ((xs.map g).flatten ++ rest) = .ok xs rest := by
  induction xs with
  | nil => rfl
  | cons x l ih =>
    simp only [List.map_cons, List.flatten_cons, List.length_cons,
      List.append_assoc, readList_succ]
    rw [h x (List.mem_cons_self x l)]
    simp only [Res.bind_ok]
    rw [ih (fun y hy r => h y (List.mem_cons_of_mem x hy) r)]
    simp only [Res.bind_ok]

theorem cIntCount_coe (n : Nat) : cIntCount (n : Int) = n := by
  unfold cIntCount
  simp

theorem countedRead_encode {α : Type} (v : RVariant) (f : Bytes → Res α)
    (g : α → Bytes) (xs : List α) (rest : Bytes) (hlen : lenWf xs)
    (h : ∀ x ∈ xs, ∀ r, f (g x ++ r) = .ok x r) :
    countedRead v f (encodeArray g xs ++ rest) = .ok xs rest := by
  unfold countedRead encodeArray
  rw [List.append_assoc, readI32_encode v _ _ ⟨by omega, hlen⟩]
  simp only [Res.bind_ok, cIntCount_coe]
  exact readList_encode f g xs rest h

theorem vmatrixRead_encode (v : RVariant) (x : DVmatrix) (rest : Bytes)
    (h : vmatrixWf x) :
    vmatrixRead v ((x.m.map (toLE 4)).flatten ++ rest) = .ok x rest := by
  unfold vmatrixRead
  rw [show (16 : Nat) = x.m.length from h.1.symm,
    readList_encode (readF32 v) (toLE 4) x.m rest
      (fun b hb r => readF32_encode v b r (h.2 b hb))]
  rfl

theorem binaryRead_encode (v : RVariant) (b rest : Bytes) (h : lenWf b) :
    binaryRead v (encodeBinary b ++ rest) = .ok b rest := by
  unfold binaryRead encodeBinary
  rw [List.append_assoc, readI32_encode v _ _ ⟨by omega, h⟩]
  simp only [Res.bind_ok]
  have h2 : (b.length : Int) < 2 ^ 31 := h
  have hu : usizeOfI32 (b.length : Int) = b.length := by
    unfold usizeOfI32
    omega
  rw [hu]
  exact readBytes_exact v b rest

theorem readU8_cons (v : RVariant) (b : Nat) (hb : b < 256) (rest : Bytes) :
    readU8 v (b :: rest) = .ok b rest := by
  show readU8 v ([b] ++ rest) = .ok b rest
  unfold readU8
  rw [readBytes_len v 1 [b] rest rfl]
  simp only [Res.bind_ok]
  congr 1
  simp [fromLE]
  omega

theorem attributeTypeRead_cons (v : RVariant) (b : Nat) (hb : b < 256)
    (rest : Bytes) :
    attributeTypeRead v (b :: rest) =
      match specTagAssign b with
      | some t => .ok t rest
      | none => .error (.unsupportedType b) := by
  unfold attributeTypeRead
  rw [readU8_cons v b hb]
  simp only [Res.bind_ok]
  interval_cases b <;> rfl

theorem attributeTypeRead_tag (v : RVariant) (b : Nat) (t : AttributeType)
    (hb : b < 256) (ht : specTagAssign b = some t) (rest : Bytes) :
    attributeTypeRead v (b :: rest) = .ok t rest := by
  rw [attributeTypeRead_cons v b hb, ht]

/-- C6: decoding the canonical binary encoding of any well-formed tagged
attribute value yields that value back and consumes exactly its encoding,
for both byte-source variants, any scalar-String payload codec satisfying
its own round-trip law, all 16 scalar tags and all 15 array tags 33 to 47
at every array length. -/
theorem c6_decode_encode_roundtrip {σ : Type} (v : RVariant)
    (sread : Bytes → Res σ) (sencode : σ → Bytes) (PS : σ → Prop)
    (hs : ∀ x, PS x → ∀ r, sread (sencode x ++ r) = .ok x r)
    (val : AttributeValue σ) (hwf : wfValue PS val) (rest : Bytes) :
    attributeValueRead v sread (encodeAttributeValue sencode val ++ rest) =
      .ok val rest := by
  cases val with
  | element i =>
    simp only [encodeAttributeValue, List.cons_append, List.nil_append]
    unfold attributeValueRead
    rw [attributeTypeRead_tag v 1 .element (by norm_num) (by decide)]
    simp only [Res.bind_ok]
    rw [readI32_encode v _ _ hwf]
    simp only [Res.bind_ok]
  | int i =>
    simp only [encodeAttributeValue, List.cons_append, List.nil_append]
    unfold attributeValueRead
    rw [attributeTypeRead_tag v 2 .int (by norm_num) (by decide)]
    simp only [Res.bind_ok]
    rw [readI32_encode v _ _ hwf]
    simp only [Res.bind_ok]
  | float b =>
    simp only [encodeAttributeValue, List.cons_append, List.nil_append]
    unfold attributeValueRead
    rw [attributeTypeRead_tag v 3 .float (by norm_num) (by decide)]
    simp only [Res.bind_ok]
    rw [readF32_encode v _ _ hwf]
    simp only [Res.bind_ok]
  | bool b =>
    simp only [encodeAttributeValue, List.cons_append, List.nil_append]
    unfold attributeValueRead
    rw [attributeTypeRead_tag v 4 .bool (by norm_num) (by decide)]
    simp only [Res.bind_ok]
    rw [boolRead_encode v b rest]
    simp only [Res.bind_ok]
  | string x =>
    simp only [encodeAttributeValue, List.cons_append, List.nil_append]
    unfold attributeValueRead
    rw [attributeTypeRead_tag v 5 .string (by norm_num) (by decide)]
    simp only [Res.bind_ok]
    rw [hs x hwf rest]
    simp only [Res.bind_ok]
  | binary b =>
    simp only [encodeAttributeValue, List.cons_append, List.nil_append]
    unfold attributeValueRead
    rw [attributeTypeRead_tag v 6 .binary (by norm_num) (by decide)]
    simp only [Res.bind_ok]
    rw [binaryRead_encode v b rest hwf]
    simp only [Res.bind_ok]
  | time t =>
    simp only [encodeAttributeValue, List.cons_append, List.nil_append]
    unfold attributeValueRead
    rw [attributeTypeRead_tag v 7 .time (by norm_num) (by decide)]
    simp only [Res.bind_ok]
    rw [timeRead_encode v t rest hwf]
    simp only [Res.bind_ok]
  | color c =>
    simp only [encodeAttributeValue, List.cons_append, List.nil_append]
    unfold attributeValueRead
    rw [attributeTypeRead_tag v 8 .color (by norm_num) (by decide)]
    simp only [Res.bind_ok]
    rw [colorRead_encode v c rest hwf]
    simp only [Res.bind_ok]
  | vector2 x =>
    simp only [encodeAttributeValue, List.cons_append, List.nil_append]
    unfold attributeValueRead
    rw [attributeTypeRead_tag v 9 .vector2 (by norm_num) (by decide)]
    simp only [Res.bind_ok]
    rw [vector2Read_encode v x rest hwf]
    simp only [Res.bind_ok]
  | vector3 x =>
    simp only [encodeAttributeValue, List.cons_append, List.nil_append]
    unfold attributeValueRead
    rw [attributeTypeRead_tag v 10 .vector3 (by norm_num) (by decide)]
    simp only [Res.bind_ok]
    rw [vector3Read_encode v x rest hwf]
    simp only [Res.bind_ok]
  | vector4 x =>
    simp only [encodeAttributeValue, List.cons_append, List.nil_append]
    unfold attributeValueRead
    rw [attributeTypeRead_tag v 11 .vector4 (by norm_num) (by decide)]
    simp only [Res.bind_ok]
    rw [vector4Read_encode v x rest hwf]
    simp only [Res.bind_ok]
  | qangle x =>
    simp only [encodeAttributeValue, List.cons_append, List.nil_append]
    unfold attributeValueRead
    rw [attributeTypeRead_tag v 12 .qangle (by norm_num) (by decide)]
    simp only [Res.bind_ok]
    rw [qangleRead_encode v x rest hwf]
    simp only [Res.bind_ok]
  | quaternion x =>
    simp only [encodeAttributeValue, List.cons_append, List.nil_append]
    unfold attributeValueRead
    rw [attributeTypeRead_tag v 13 .quaternion (by norm_num) (by decide)]
    simp only [Res.bind_ok]
    rw [quaternionRead_encode v x rest hwf]
    simp only [Res.bind_ok]
  | vmatrix x =>
    simp only [encodeAttributeValue, List.cons_append, List.nil_append]
    unfold attributeValueRead
    rw [attributeTypeRead_tag v 14 .vmatrix (by norm_num) (by decide)]
    simp only [Res.bind_ok]
    rw [vmatrixRead_encode v x rest hwf]
    simp only [Res.bind_ok]
  | uint64 n =>
    simp only [encodeAttributeValue, List.cons_append, List.nil_append]
    unfold attributeValueRead
    rw [attributeTypeRead_tag v 15 .uint64 (by norm_num) (by decide)]
    simp only [Res.bind_ok]
    rw [readU64_encode v _ _ hwf]
    simp only [Res.bind_ok]
  | uint8 n =>
    simp only [encodeAttributeValue, List.cons_append, List.nil_append]
    unfold attributeValueRead
    rw [attributeTypeRead_tag v 16 .uint8 (by norm_num) (by decide)]
    simp only [Res.bind_ok]
    rw [readU8_encode v _ _ hwf]
    simp only [Res.bind_ok]
  | elementArray xs =>
    simp only [encodeAttributeValue, List.cons_append, List.nil_append]
    unfold attributeValueRead
    rw [attributeTypeRead_tag v 33 .elementArray (by norm_num) (by decide)]
    simp only [Res.bind_ok]
    rw [countedRead_encode v (readI32 v) encodeI32 xs rest hwf.1
          (fun x hx r => readI32_encode v x r (hwf.2 x hx))]
    simp only [Res.bind_ok]
  | intArray xs =>
    simp only [encodeAttributeValue, List.cons_append, List.nil_append]
    unfold attributeValueRead
    rw [attributeTypeRead_tag v 34 .intArray (by norm_num) (by decide)]
    simp only [Res.bind_ok]
    rw [countedRead_encode v (readI32 v) encodeI32 xs rest hwf.1
          (fun x hx r => readI32_encode v x r (hwf.2 x hx))]
    simp only [Res.bind_ok]
  | floatArray xs =>
    simp only [encodeAttributeValue, List.cons_append, List.nil_append]
    unfold attributeValueRead
    rw [attributeTypeRead_tag v 35 .floatArray (by norm_num) (by decide)]
    simp only [Res.bind_ok]
    rw [countedRead_encode v (readF32 v) (toLE 4) xs rest hwf.1
          (fun x hx r => readF32_encode v x r (hwf.2 x hx))]
    simp only [Res.bind_ok]
  | boolArray xs =>
    simp only [encodeAttributeValue, List.cons_append, List.nil_append]
    unfold attributeValueRead
    rw [attributeTypeRead_tag v 36 .boolArray (by norm_num) (by decide)]
    simp only [Res.bind_ok]
    rw [countedRead_encode v (boolRead v) (fun b => [if b then 1 else 0]) xs rest hwf
          (fun x _ r => boolRead_encode v x r)]
    simp only [Res.bind_ok]
  | stringArray xs =>
    simp only [encodeAttributeValue, List.cons_append, List.nil_append]
    unfold attributeValueRead
    rw [attributeTypeRead_tag v 37 .stringArray (by norm_num) (by decide)]
    simp only [Res.bind_ok]
    rw [countedRead_encode v (stringRead v) encodeString xs rest hwf.1
          (fun x hx r => stringRead_encode v x r (hwf.2 x hx))]
    simp only [Res.bind_ok]
  | binaryArray xs =>
    simp only [encodeAttributeValue, List.cons_append, List.nil_append]
    unfold attributeValueRead
    rw [attributeTypeRead_tag v 38 .binaryArray (by norm_num) (by decide)]
    simp only [Res.bind_ok]
    rw [countedRead_encode v (binaryRead v) encodeBinary xs rest hwf.1
          (fun x hx r => binaryRead_encode v x r (hwf.2 x hx))]
    simp only [Res.bind_ok]
  | timeArray xs =>
    simp only [encodeAttributeValue, List.cons_append, List.nil_append]
    unfold attributeValueRead
    rw [attributeTypeRead_tag v 39 .timeArray (by norm_num) (by decide)]
    simp only [Res.bind_ok]
    rw [countedRead_encode v (timeRead v) (fun t => encodeI32 t.millis) xs rest hwf.1
          (fun x hx r => timeRead_encode v x r (hwf.2 x hx))]
    simp only [Res.bind_ok]
  | colorArray xs =>
    simp only [encodeAttributeValue, List.cons_append, List.nil_append]
    unfold attributeValueRead
    rw [attributeTypeRead_tag v 40 .colorArray (by norm_num) (by decide)]
    simp only [Res.bind_ok]
    rw [countedRead_encode v (colorRead v)
          (fun c => encodeI8 c.r ++ encodeI8 c.g ++ encodeI8 c.b ++ encodeI8 c.a) xs rest hwf.1
          (fun x hx r => colorRead_encode v x r (hwf.2 x hx))]
    simp only [Res.bind_ok]
  | vector2Array xs =>
    simp only [encodeAttributeValue, List.cons_append, List.nil_append]
    unfold attributeValueRead
    rw [attributeTypeRead_tag v 41 .vector2Array (by norm_num) (by decide)]
    simp only [Res.bind_ok]
    rw [countedRead_encode v (vector2Read v) (fun x => toLE 4 x.x ++ toLE 4 x.y) xs rest hwf.1
          (fun x hx r => vector2Read_encode v x r (hwf.2 x hx))]
    simp only [Res.bind_ok]
  | vector3Array xs =>
    simp only [encodeAttributeValue, List.cons_append, List.nil_append]
    unfold attributeValueRead
    rw [attributeTypeRead_tag v 42 .vector3Array (by norm_num) (by decide)]
    simp only [Res.bind_ok]
    rw [countedRead_encode v (vector3Read v)
          (fun x => toLE 4 x.x ++ toLE 4 x.y ++ toLE 4 x.z) xs rest hwf.1
          (fun x hx r => vector3Read_encode v x r (hwf.2 x hx))]
    simp only [Res.bind_ok]
  | vector4Array xs =>
    simp only [encodeAttributeValue, List.cons_append, List.nil_append]
    unfold attributeValueRead
    rw [attributeTypeRead_tag v 43 .vector4Array (by norm_num) (by decide)]
    simp only [Res.bind_ok]
    rw [countedRead_encode v (vector4Read v)
          (fun x => toLE 4 x.x ++ toLE 4 x.y ++ toLE 4 x.z ++ toLE 4 x.w) xs rest hwf.1
          (fun x hx r => vector4Read_encode v x r (hwf.2 x hx))]
    simp only [Res.bind_ok]
  | qangleArray xs =>
    simp only [encodeAttributeValue, List.cons_append, List.nil_append]
    unfold attributeValueRead
    rw [attributeTypeRead_tag v 44 .qangleArray (by norm_num) (by decide)]
    simp only [Res.bind_ok]
    rw [countedRead_encode v (qangleRead v)
          (fun x => toLE 4 x.pitch ++ toLE 4 x.yaw ++ toLE 4 x.roll) xs rest hwf.1
          (fun x hx r => qangleRead_encode v x r (hwf.2 x hx))]
    simp only [Res.bind_ok]
  | quaternionArray xs =>
    simp only [encodeAttributeValue, List.cons_append, List.nil_append]
    unfold attributeValueRead
    rw [attributeTypeRead_tag v 45 .quaternionArray (by norm_num) (by decide)]
    simp only [Res.bind_ok]
    rw [countedRead_encode v (quaternionRead v)
          (fun x => toLE 4 x.x ++ toLE 4 x.y ++ toLE 4 x.z ++ toLE 4 x.w) xs rest hwf.1
          (fun x hx r => quaternionRead_encode v x r (hwf.2 x hx))]
    simp only [Res.bind_ok]
  | vmatrixArray xs =>
    simp only [encodeAttributeValue, List.cons_append, List.nil_append]
    unfold attributeValueRead
    rw [attributeTypeRead_tag v 46 .vmatrixArray (by norm_num) (by decide)]
    simp only [Res.bind_ok]
    rw [countedRead_encode v (vmatrixRead v) (fun x => (x.m.map (toLE 4)).flatten) xs rest hwf.1
          (fun x hx r => vmatrixRead_encode v x r (hwf.2 x hx))]
    simp only [Res.bind_ok]
  | uint64Array xs =>
    simp only [encodeAttributeValue, List.cons_append, List.nil_append]
    unfold attributeValueRead
    rw [attributeTypeRead_tag v 47 .uint64Array (by norm_num) (by decide)]
    simp only [Res.bind_ok]
    rw [countedRead_encode v (readU64 v) encodeU64 xs rest hwf.1
          (fun x hx r => readU64_encode v x r (hwf.2 x hx))]
    simp only [Res.bind_ok]

/-- C1 (amended): the tag mapping is total and closed — every byte 1 to 16
decodes to the corresponding scalar kind in the fixed order; bytes 33 to
47 decode to the array counterparts of the first fifteen scalar kinds
(Uint8, tag 16, has no array counterpart); every other byte, including
48, fails with an unsupported-type error carrying the raw byte. -/
theorem c1_tag_mapping (v : RVariant) (b : Nat) (hb : b < 256) (rest : Bytes) :
    attributeTypeRead v (b :: rest) =
      match specTagAssign b with
      | some t => .ok t rest
      | none => .error (.unsupportedType b) :=
  attributeTypeRead_cons v b hb rest

/-- C1 counterexample: tag 48, which is scalar tag 16 (Uint8) plus 32,
does not decode to a Uint8 array kind — it fails with the
unsupported-type error, refuting the claim that every one of the 16
scalar kinds has a decodable array counterpart at scalar tag plus 32. -/
theorem c1_counterexample :
    attributeTypeRead .slice [48] = .error (.unsupportedType 48) := by decide

/-- C1 witness: the mapping theorem applied at scalar tag 5, array tag 47
and the unassigned byte 17. -/
theorem c1_witness :
    attributeTypeRead .slice [5, 9] = .ok .string [9] ∧
    attributeTypeRead .stream [47] = .ok .uint64Array [] ∧
    attributeTypeRead .slice [17] = .error (.unsupportedType 17) :=
  ⟨c1_tag_mapping .slice 5 (by decide) [9],
   c1_tag_mapping .stream 47 (by decide) [],
   c1_tag_mapping .slice 17 (by decide) []⟩

/-- C2 (amended): when the parsed header line carries any
encoding-name/encoding-version profile other than binary 9, File::read
aborts through a failed assertion — a crash, not an error value returned
as the entry point's fallible result; no document is produced. -/
theorem c2_profile_mismatch_crash (v : RVariant) (s s2 : Bytes)
    (h : DFileHeader) (hh : fileHeaderRead v s = .ok h s2)
    (hprof : ¬ (h.encoding_name = binaryBytes ∧ h.encoding_version = 9)) :
    fileRead v s = .crash := by
  unfold fileRead
  rw [hh]
  simp only [Res.bind_ok]
  by_cases h1 : h.encoding_name = binaryBytes
  · have h2 : ¬ h.encoding_version = 9 := fun e => hprof ⟨h1, e⟩
    rw [if_pos h1, if_neg h2]
  · rw [if_neg h1]

/-- A complete input whose header line reads dmx encoding ascii 9 format
generic 1, followed by the NUL ending the header string. -/
def c2Input : Bytes :=
  openToken ++ [97, 115, 99, 105, 105] ++ [32, 57] ++ formatToken ++
    [103, 101, 110, 101, 114, 105, 99] ++ [32, 49] ++ closeToken ++ [0]

/-- C2 counterexample: on an input whose profile is ascii 9, both decode
entry points crash (assertion failure) instead of returning the hard
decode failure as the fallible result. -/
theorem c2_counterexample :
    fileRead .slice c2Input = .crash ∧ fileRead .stream c2Input = .crash := by
  constructor <;> decide

/-- C2 witness: the amended theorem applied to the concrete ascii-profile
input. -/
theorem c2_witness : fileRead .slice c2Input = .crash :=
  c2_profile_mismatch_crash .slice c2Input []
    ⟨[97, 115, 99, 105, 105], 9, [103, 101, 110, 101, 114, 105, 99], 1⟩
    (by decide) (by decide)

/-- C3 (amended): when fewer bytes remain than requested, a fixed-width
or length-prefixed read fails with a returned I/O error in the
owned-stream variant, but crashes (slice index out of bounds) in the
borrowed-slice variant. -/
theorem c3_short_read (n : Nat) (s : Bytes) (h : s.length < n) :
    readBytes .stream n s = .error .ioError ∧ readBytes .slice n s = .crash := by
  unfold readBytes
  rw [if_neg (by omega), if_neg (by omega)]
  exact ⟨rfl, rfl⟩

/-- C3 counterexample: requesting two bytes from a one-byte slice crashes
instead of returning an I/O-class error value. -/
theorem c3_counterexample : readBytes .slice 2 [7] = .crash := by decide

/-- C3 witness: the short-read theorem applied at two bytes requested
from a one-byte input. -/
theorem c3_witness :
    readBytes .stream 2 [7] = .error .ioError ∧ readBytes .slice 2 [7] = .crash :=
  c3_short_read 2 [7] (by decide)

/-- C4: out-of-range positive StringRef and Element indices are not
validated during materialization — the string-table lookup of the
StringDeserializer, the element-header lookup of variant_seed and the
body lookup of next_key_seed all crash rather than return a
reference-error result. -/
theorem vecIndex_oob {α : Type} (xs : List α) (i : Nat) (h : xs.length ≤ i) :
    vecIndex xs i = .crash := by
  unfold vecIndex
  rw [dif_neg (by omega)]

theorem vecIndex_get {α : Type} (xs : List α) (i : Nat) (h : i < xs.length) :
    vecIndex xs i = .ok (xs.get ⟨i, h⟩) := by
  unfold vecIndex
  rw [dif_pos h]

theorem stringRefIndex_nonneg (i : Int) (h : 0 ≤ i) :
    stringRefIndex i = some i.toNat := by
  unfold stringRefIndex
  rw [if_pos h]

theorem stringRefIndex_neg (i : Int) (h : i < 0) :
    stringRefIndex i = none := by
  unfold stringRefIndex
  rw [if_neg (by omega)]

theorem c4_oob_index_crash :
    (∀ (strings : List Bytes) (r : Int), 0 ≤ r → (strings.length : Int) ≤ r →
      stringDeserializeAny strings r = .crash) ∧
    (∀ (strings : List Bytes) (headers : List DHeader) (i : Int),
      0 ≤ i → (headers.length : Int) ≤ i →
      elementVariantSeed strings headers i = .crash) ∧
    (∀ (strings : List Bytes) (bodies : List DBody) (i attr : Nat),
      bodies.length ≤ i → attributesNextKey strings bodies i attr = .crash) := by
  refine ⟨?_, ?_, ?_⟩
  · intro strings r h0 hlen
    unfold stringDeserializeAny
    simp only [stringRefIndex_nonneg r h0, vecIndex_oob strings r.toNat (by omega)]
  · intro strings headers i h0 hlen
    unfold elementVariantSeed
    simp only [stringRefIndex_nonneg i h0, vecIndex_oob headers i.toNat (by omega)]
  · intro strings bodies i attr hlen
    unfold attributesNextKey
    simp only [vecIndex_oob bodies i hlen]

/-- C4 witness: each crashing lookup exercised at index 0 over empty
tables. -/
theorem c4_witness :
    stringDeserializeAny [] 0 = .crash ∧
    elementVariantSeed [] [] 0 = .crash ∧
    attributesNextKey [] [] 0 0 = .crash :=
  ⟨c4_oob_index_crash.1 [] 0 (by decide) (by decide),
   c4_oob_index_crash.2.1 [] [] 0 (by decide) (by decide),
   c4_oob_index_crash.2.2 [] [] 0 0 (by decide)⟩

/-- C5 (amended): read_until returns exactly the bytes up to and
including the first delimiter occurrence in both variants; when the
delimiter is absent the borrowed-slice variant fails with an error, but
the owned-stream variant returns the remaining bytes without error. -/
theorem c5_read_until (v : RVariant) (d : Nat) :
    (∀ pre post : Bytes, ¬ d ∈ pre →
      readUntil v d (pre ++ d :: post) = .ok (pre ++ [d]) post) ∧
    (∀ s : Bytes, ¬ d ∈ s → readUntil .slice d s = .error (.delimiterNotFound d)) ∧
    (∀ s : Bytes, ¬ d ∈ s → readUntil .stream d s = .ok s []) :=
  ⟨fun pre post h => readUntil_found v d pre post h,
   fun s h => readUntil_absent_slice d s h,
   fun s h => readUntil_absent_stream d s h⟩

/-- C5 counterexample: the owned-stream read_until on an input without
the delimiter returns the bytes read, with no error, refuting the claim
that absence of the delimiter is a failure in both variants. -/
theorem c5_counterexample : readUntil .stream 0 [97, 98] = .ok [97, 98] [] := by
  decide

/-- C5 witness: the read_until theorem applied with the delimiter
present, and absent in each variant. -/
theorem c5_witness :
    readUntil .slice 0 [97, 0, 98] = .ok [97, 0] [98] ∧
    readUntil .slice 0 [97] = .error (.delimiterNotFound 0) ∧
    readUntil .stream 0 [97] = .ok [97] [] :=
  ⟨(c5_read_until .slice 0).1 [97] [98] (by decide),
   (c5_read_until .slice 0).2.1 [97] (by decide),
   (c5_read_until .stream 0).2.2 [97] (by decide)⟩

/-- C7: tagged-union dispatch — for an Element wire value the
discriminant is the element's declared type name resolved from its header
through the string table and the payload is re-materialized from the same
element; for every non-Element value the discriminant is the symbolic
kind name and the payload is re-materialized from the same value. -/
theorem c7_enum_dispatch (strings : List Bytes) (headers : List DHeader) :
    (∀ (i : Int) (h0 : 0 ≤ i) (h1 : i.toNat < headers.length)
       (h3 : 0 ≤ (headers.get ⟨i.toNat, h1⟩).type_)
       (h2 : (headers.get ⟨i.toNat, h1⟩).type_.toNat < strings.length),
       valueDeserializeEnum strings headers (.element i) =
         .ok (.fromElement
           (.ok (strings.get ⟨(headers.get ⟨i.toNat, h1⟩).type_.toNat, h2⟩)) i)) ∧
    (∀ val : AttributeValue Int, (∀ i, val ≠ .element i) →
       valueDeserializeEnum strings headers val =
         .ok (.fromKind (attrTypeName val.kind) val)) := by
  constructor
  · intro i h0 h1 h3 h2
    have hseed : elementVariantSeed strings headers i =
        .ok (strings.get ⟨(headers.get ⟨i.toNat, h1⟩).type_.toNat, h2⟩) := by
      unfold elementVariantSeed
      simp only [stringRefIndex_nonneg i h0, vecIndex_get headers i.toNat h1]
      unfold stringDeserializeAny
      simp only [stringRefIndex_nonneg _ h3,
        vecIndex_get strings (headers.get ⟨i.toNat, h1⟩).type_.toNat h2]
    simp only [valueDeserializeEnum]
    rw [if_pos h0]
    simp only [hseed]
  · intro val hne
    cases val with
    | element i => exact absurd rfl (hne i)
    | int i => rfl
    | float b => rfl
    | bool b => rfl
    | string x => rfl
    | binary b => rfl
    | time t => rfl
    | color c => rfl
    | vector2 x => rfl
    | vector3 x => rfl
    | vector4 x => rfl
    | qangle x => rfl
    | quaternion x => rfl
    | vmatrix x => rfl
    | uint64 n => rfl
    | uint8 n => rfl
    | elementArray xs => rfl
    | intArray xs => rfl
    | floatArray xs => rfl
    | boolArray xs => rfl
    | stringArray xs => rfl
    | binaryArray xs => rfl
    | timeArray xs => rfl
    | colorArray xs => rfl
    | vector2Array xs => rfl
    | vector3Array xs => rfl
    | vector4Array xs => rfl
    | qangleArray xs => rfl
    | quaternionArray xs => rfl
    | vmatrixArray xs => rfl
    | uint64Array xs => rfl

/-- C7 witness: an element of type name Foo dispatches to discriminant
Foo; a Float scalar dispatches to discriminant Float with itself as
payload. -/
theorem c7_witness :
    valueDeserializeEnum [[70, 111, 111]] [⟨0, -1, []⟩] (.element 0) =
      .ok (.fromElement (.ok [70, 111, 111]) 0) ∧
    valueDeserializeEnum [] [] (.float 5) =
      .ok (.fromKind "Float" (.float 5)) :=
  ⟨(c7_enum_dispatch [[70, 111, 111]] [⟨0, -1, []⟩]).1 0 (by decide) (by decide)
     (by decide) (by decide),
   (c7_enum_dispatch [] []).2 (.float 5)
     (fun i h => AttributeValue.noConfusion h)⟩

/-- C8: an optional request over a String-reference value or an Element
value is absent exactly when the stored reference is negative; every
other kind is always present. -/
theorem c8_optional_handling :
    (∀ i : Int, valueDeserializeOption (.string i) = .absent ↔ i < 0) ∧
    (∀ i : Int, valueDeserializeOption (.element i) = .absent ↔ i < 0) ∧
    (∀ val : AttributeValue Int, (∀ i, val ≠ .string i) →
      (∀ i, val ≠ .element i) → valueDeserializeOption val = .present) := by
  refine ⟨?_, ?_, ?_⟩
  · intro i
    simp only [valueDeserializeOption]
    by_cases h : 0 ≤ i
    · rw [if_pos h]
      simp
      omega
    · rw [if_neg h]
      simp
      omega
  · intro i
    simp only [valueDeserializeOption]
    by_cases h : 0 ≤ i
    · rw [if_pos h]
      simp
      omega
    · rw [if_neg h]
      simp
      omega
  · intro val hs he
    cases val with
    | string i => exact absurd rfl (hs i)
    | element i => exact absurd rfl (he i)
    | int i => rfl
    | float b => rfl
    | bool b => rfl
    | binary b => rfl
    | time t => rfl
    | color c => rfl
    | vector2 x => rfl
    | vector3 x => rfl
    | vector4 x => rfl
    | qangle x => rfl
    | quaternion x => rfl
    | vmatrix x => rfl
    | uint64 n => rfl
    | uint8 n => rfl
    | elementArray xs => rfl
    | intArray xs => rfl
    | floatArray xs => rfl
    | boolArray xs => rfl
    | stringArray xs => rfl
    | binaryArray xs => rfl
    | timeArray xs => rfl
    | colorArray xs => rfl
    | vector2Array xs => rfl
    | vector3Array xs => rfl
    | vector4Array xs => rfl
    | qangleArray xs => rfl
    | quaternionArray xs => rfl
    | vmatrixArray xs => rfl
    | uint64Array xs => rfl

/-- C8 witness: the optional theorem applied at the negative sentinel for
string and element references and at a plain Int value. -/
theorem c8_witness :
    valueDeserializeOption (.string (-1)) = .absent ∧
    valueDeserializeOption (.element (-1)) = .absent ∧
    valueDeserializeOption (.int 5) = .present :=
  ⟨(c8_optional_handling.1 (-1)).mpr (by decide),
   (c8_optional_handling.2.1 (-1)).mpr (by decide),
   c8_optional_handling.2.2 (.int 5) (fun i h => AttributeValue.noConfusion h)
     (fun i h => AttributeValue.noConfusion h)⟩

theorem attributesEntries_takeWhile (strings : List Bytes)
    (attrs : List DAttribute)
    (h : ∀ a ∈ attrs.takeWhile (fun a => decide (0 ≤ a.name)),
      a.name.toNat < strings.length) :
    attributesEntries strings attrs =
      .ok ((attrs.takeWhile (fun a => decide (0 ≤ a.name))).map
        (fun a => (strings.getD a.name.toNat [], a.value))) := by
  induction attrs with
  | nil => rfl
  | cons a rest ih =>
    by_cases h0 : 0 ≤ a.name
    · have htk : (a :: rest).takeWhile (fun a => decide (0 ≤ a.name))
          = a :: rest.takeWhile (fun a => decide (0 ≤ a.name)) :=
        List.takeWhile_cons_of_pos (by simpa using h0)
      have ha : a.name.toNat < strings.length := by
        apply h
        rw [htk]
        exact List.mem_cons_self a _
      have hrest : ∀ x ∈ rest.takeWhile (fun a => decide (0 ≤ a.name)),
          x.name.toNat < strings.length := by
        intro x hx
        apply h
        rw [htk]
        exact List.mem_cons_of_mem a hx
      simp only [attributesEntries, stringRefIndex_nonneg a.name h0,
        vecIndex_get strings a.name.toNat ha, ih hrest, htk, List.map_cons,
        List.get_eq_getElem, List.getD_eq_getElem strings [] ha]
    · have htk : (a :: rest).takeWhile (fun a => decide (0 ≤ a.name)) = [] :=
        List.takeWhile_cons_of_neg (by simpa using h0)
      simp only [attributesEntries, stringRefIndex_neg a.name (by omega), htk,
        List.map_nil]

/-- C9: materializing an element as a mapping yields its attributes as
resolved-name and value pairs in exactly the body's declaration order
(never name-sorted), resolving each name through the string table. -/
theorem c9_map_declaration_order (strings : List Bytes) (bodies : List DBody)
    (i : Int) (h0 : 0 ≤ i) (hb : i.toNat < bodies.length)
    (hall : ∀ a ∈ (bodies.get ⟨i.toNat, hb⟩).attributes,
      0 ≤ a.name ∧ a.name.toNat < strings.length) :
    elementAsMap strings bodies i =
      .ok ((bodies.get ⟨i.toNat, hb⟩).attributes.map
        (fun a => (strings.getD a.name.toNat [], a.value))) := by
  have htk : (bodies.get ⟨i.toNat, hb⟩).attributes.takeWhile
      (fun a => decide (0 ≤ a.name)) = (bodies.get ⟨i.toNat, hb⟩).attributes :=
    List.takeWhile_eq_self_iff.mpr (fun x hx => by simpa using (hall x hx).1)
  unfold elementAsMap
  simp only [stringRefIndex_nonneg i h0, vecIndex_get bodies i.toNat hb]
  rw [attributesEntries_takeWhile strings _
    (by rw [htk]; intro x hx; exact (hall x hx).2), htk]

/-- C9 witness: the order theorem applied to a body with names in order
b, a, c, yielding keys in that same declaration order. -/
theorem c9_witness :
    elementAsMap [[97], [98], [99]]
      [⟨[⟨1, .int 10⟩, ⟨0, .int 20⟩, ⟨2, .int 30⟩]⟩] 0 =
      .ok [([98], .int 10), ([97], .int 20), ([99], .int 30)] :=
  c9_map_declaration_order [[97], [98], [99]]
    [⟨[⟨1, .int 10⟩, ⟨0, .int 20⟩, ⟨2, .int 30⟩]⟩] 0 (by decide) (by decide)
    (by decide)

/-- C10: materializing an element as a mapping silently stops at the
first attribute whose name reference is negative — the result is the
longest prefix of the body with non-negative names, resolved in order,
with no error raised. -/
theorem c10_negative_name_truncates (strings : List Bytes)
    (bodies : List DBody) (i : Int) (h0 : 0 ≤ i) (hb : i.toNat < bodies.length)
    (h : ∀ a ∈ (bodies.get ⟨i.toNat, hb⟩).attributes.takeWhile
        (fun a => decide (0 ≤ a.name)), a.name.toNat < strings.length) :
    elementAsMap strings bodies i =
      .ok (((bodies.get ⟨i.toNat, hb⟩).attributes.takeWhile
        (fun a => decide (0 ≤ a.name))).map
        (fun a => (strings.getD a.name.toNat [], a.value))) := by
  unfold elementAsMap
  simp only [stringRefIndex_nonneg i h0, vecIndex_get bodies i.toNat hb]
  exact attributesEntries_takeWhile strings _ h

/-- C10 witness: a body whose second attribute has the negative sentinel
name materializes as just its first attribute, without error. -/
theorem c10_witness :
    elementAsMap [[97]] [⟨[⟨0, .int 1⟩, ⟨-1, .int 2⟩, ⟨0, .int 3⟩]⟩] 0 =
      .ok [([97], .int 1)] :=
  c10_negative_name_truncates [[97]]
    [⟨[⟨0, .int 1⟩, ⟨-1, .int 2⟩, ⟨0, .int 3⟩]⟩] 0 (by decide) (by decide)
    (by decide)

/-- C6 witness: the round-trip theorem applied at a scalar, an empty
array and a three-element array, in both string-payload modes. -/
theorem c6_witness :
    attributeValueRead .slice (readI32 .slice)
      (encodeAttributeValue encodeI32 (.int 7) ++ []) = .ok (.int 7) [] ∧
    attributeValueRead .stream (stringRead .stream)
      (encodeAttributeValue encodeString (.vector3Array []) ++ [9]) =
      .ok (.vector3Array []) [9] ∧
    attributeValueRead .slice (readI32 .slice)
      (encodeAttributeValue encodeI32 (.intArray [1, 2, 3]) ++ []) =
      .ok (.intArray [1, 2, 3]) [] :=
  ⟨c6_decode_encode_roundtrip .slice (readI32 .slice) encodeI32 i32Range
     (fun x hx r => readI32_encode .slice x r hx) (.int 7)
     ⟨by decide, by decide⟩ [],
   c6_decode_encode_roundtrip .stream (stringRead .stream) encodeString strWf
     (fun x hx r => stringRead_encode .stream x r hx) (.vector3Array [])
     ⟨by norm_num [lenWf], fun x hx => absurd hx (List.not_mem_nil x)⟩ [9],
   c6_decode_encode_roundtrip .slice (readI32 .slice) encodeI32 i32Range
     (fun x hx r => readI32_encode .slice x r hx) (.intArray [1, 2, 3])
     ⟨by norm_num [lenWf],
      by intro x hx; fin_cases hx <;> exact ⟨by norm_num, by norm_num⟩⟩ []⟩
